import Mathlib

/-! catalog-service: request handlers over a document store

A shallow embedding of `main.go`: the `Book` record, the five handlers
(`health`, `listBooks`, `createBook`, `updateBook`, `deleteBook`), the two
routing closures registered in `main`, and the library calls they make
(`writeJSON`, `http.Error`, `primitive.ObjectIDFromHex`, `ObjectID.Hex`, the
JSON body decoder and the four collection operations).

Go strings are byte strings: `len s` is `String.utf8ByteSize` and `s[n:]` is a
byte slice that fails when `n` exceeds the length. The store is a list of
records with unique `_id`; a `Driver` value carries what the outside world
decides for one store call (a fault, the next generated identity).
-/

set_option autoImplicit false

namespace CatalogService

/-! ## Identifiers: `primitive.ObjectID` -/

/-- The type `primitive.ObjectID`, a `[12]byte` array. -/
structure ObjectID where
  bytes : List (Fin 256)
  size : bytes.length = 12
deriving DecidableEq

/-- The zero value `primitive.NilObjectID`. -/
def NilObjectID : ObjectID := ⟨List.replicate 12 0, rfl⟩

/-- The method `ObjectID.IsZero`: `id == NilObjectID`. -/
def ObjectID.IsZero (id : ObjectID) : Bool := decide (id = NilObjectID)

/-- The digit table of `encoding/hex`. -/
def hextable : List Char :=
  ['0', '1', '2', '3', '4', '5', '6', '7', '8', '9', 'a', 'b', 'c', 'd', 'e', 'f']

/-- One output digit of `hex.Encode`: `hextable[n]`. -/
def hexDigit (n : Nat) : Char := hextable.getD n '0'

/-- The function `hex.EncodeToString`: two digits per byte, high nibble first. -/
def hexEncode : List (Fin 256) → List Char
  | [] => []
  | b :: rest => hexDigit (b.val / 16) :: hexDigit (b.val % 16) :: hexEncode rest

/-- The method `ObjectID.Hex`. -/
def ObjectID.Hex (id : ObjectID) : String := ⟨hexEncode id.bytes⟩

/-- The function `fromHexChar` of `encoding/hex`: the value of one digit,
upper or lower case, or nothing for any other byte. -/
def fromHexChar (c : Char) : Option Nat :=
  if '0'.toNat ≤ c.toNat ∧ c.toNat ≤ '9'.toNat then some (c.toNat - '0'.toNat)
  else if 'a'.toNat ≤ c.toNat ∧ c.toNat ≤ 'f'.toNat then some (c.toNat - 'a'.toNat + 10)
  else if 'A'.toNat ≤ c.toNat ∧ c.toNat ≤ 'F'.toNat then some (c.toNat - 'A'.toNat + 10)
  else none

/-- The function `hex.Decode`: digits are consumed in pairs; an odd digit
count or a byte that is no hex digit is an error. -/
def hexDecode : List Char → Option (List (Fin 256))
  | [] => some []
  | [_] => none
  | a :: b :: rest =>
    match fromHexChar a, fromHexChar b, hexDecode rest with
    | some hi, some lo, some tl => some (Fin.ofNat (hi * 16 + lo) :: tl)
    | _, _, _ => none

/-- The function `primitive.ObjectIDFromHex`: the string must be 24 bytes long
and decode as hex; `none` stands for the returned error. -/
def ObjectIDFromHex (s : String) : Option ObjectID :=
  if s.utf8ByteSize ≠ 24 then none
  else
    match hexDecode s.data with
    | none => none
    | some bs => if h : bs.length = 12 then some ⟨bs, h⟩ else none

/-! ## Go strings -/

/-- The builtin `len` on a string: its length in bytes. -/
def len (s : String) : Nat := s.utf8ByteSize

/-- The slice expression `s[n:]`: the bytes of `s` from offset `n` on; `none`
stands for the run-time panic "slice bounds out of range" when `n > len s`. -/
def sliceFrom (s : String) (n : Nat) : Option String :=
  if n ≤ len s then some (s.extract ⟨n⟩ s.endPos) else none

/-- A subtree pattern of `http.ServeMux` (one that ends in a slash) matches
the paths that begin with it. -/
def startsWith (path pat : String) : Bool := pat.data.isPrefixOf path.data

/-! ## The data model -/

/-- A `float64` by its IEEE-754 bit pattern. The handlers only move prices
around, they never compute with them; the zero value is `+0`. -/
structure Float64 where
  bits : Nat
deriving DecidableEq

/-- The struct `Book`. -/
structure Book where
  ID : ObjectID
  Title : String
  Author : String
  Price : Float64
  Stock : Int
deriving DecidableEq

/-- The zero value of `Book`, what `var b Book` declares. -/
def Book.zero : Book :=
  { ID := NilObjectID, Title := "", Author := "", Price := ⟨0⟩, Stock := 0 }

/-- What a JSON object supplies for the keys named by the `json` tags of
`Book` (`id`, `title`, `author`, `price`, `stock`): the decoded value of each
key that is present. -/
structure BookFields where
  id : Option ObjectID
  title : Option String
  author : Option String
  price : Option Float64
  stock : Option Int
deriving DecidableEq

/-- A request body as the decoder sees it: a text `Decode` rejects with an
error (bad syntax, a value of the wrong type, an empty body), or an object. -/
inductive Body where
  | malformed (err : String)
  | object (fields : BookFields)
deriving DecidableEq

/-- The call `json.NewDecoder(body).Decode(&b)`: an error, or `b` with every
field whose key the object holds overwritten and the other fields left as
they were. -/
def jsonDecode (body : Body) (b : Book) : Except String Book :=
  match body with
  | .malformed err => .error err
  | .object f =>
    .ok { ID := f.id.getD b.ID, Title := f.title.getD b.Title, Author := f.author.getD b.Author,
          Price := f.price.getD b.Price, Stock := f.stock.getD b.Stock }

/-- The part of `*http.Request` the handlers read. -/
structure Request where
  Method : String
  Path : String
  Body : Body
deriving DecidableEq

/-! ## Responses -/

/-- The values handed to `writeJSON`: a map literal with string values, or
the slice of books. A Go map has no order; the list keeps the order of the
literal. -/
inductive Payload where
  | object (kvs : List (String × String))
  | books (out : List Book)
deriving DecidableEq

/-- What is written after the header: a JSON encoding or a line of text. -/
inductive ResponseBody where
  | json (v : Payload)
  | text (line : String)
deriving DecidableEq

/-- What a handler leaves in the `http.ResponseWriter`. -/
structure Response where
  header : List (String × String)
  status : Nat
  body : ResponseBody
deriving DecidableEq

/-- The value of a response header, as `Header.Get` returns it. -/
def Response.Get (w : Response) (key : String) : Option String := w.header.lookup key

/-- The function `writeJSON`: sets the content type, writes the status code,
encodes `v`. -/
def writeJSON (code : Nat) (v : Payload) : Response :=
  { header := [("Content-Type", "application/json")], status := code, body := .json v }

/-- The function `http.Error`: replies with the message as plain text. -/
def http.Error (error : String) (code : Nat) : Response :=
  { header := [("Content-Type", "text/plain; charset=utf-8"), ("X-Content-Type-Options", "nosniff")],
    status := code, body := .text error }

/-! ## The document store behind `coll` -/

/-- The BSON document `bson.Marshal` makes of a `Book` by its `bson` tags:
`_id` is `omitempty`, so a zero identity leaves the key out. -/
structure Document where
  _id : Option ObjectID
  title : String
  author : String
  price : Float64
  stock : Int
deriving DecidableEq

/-- Marshalling of a `Book` for `InsertOne`. -/
def Book.marshal (b : Book) : Document :=
  { _id := if b.ID.IsZero then none else some b.ID,
    title := b.Title, author := b.Author, price := b.Price, stock := b.Stock }

/-- The update document built in `updateBook`: a `$set` of four keys. -/
structure SetDoc where
  title : String
  author : String
  price : Float64
  stock : Int
deriving DecidableEq

/-- A call made on the collection. -/
inductive StoreCall where
  | Find
  | InsertOne (doc : Document)
  | UpdateByID (id : ObjectID) (upd : SetDoc)
  | DeleteOne (id : ObjectID)
deriving DecidableEq

/-- The collection `coll`: the records it holds, in the order `Find` lists
them, and the calls made on it so far. -/
structure Collection where
  docs : List Book
  calls : List StoreCall
deriving DecidableEq

/-- The identities of the records of a collection. -/
def Collection.ids (coll : Collection) : List ObjectID := coll.docs.map Book.ID

/-- The store keeps `_id` unique. -/
def Collection.WF (coll : Collection) : Prop := coll.ids.Nodup

instance (coll : Collection) : Decidable coll.WF := by
  unfold Collection.WF; infer_instance

/-- What the driver and the server bring to one store call: the error the
call ends in, if any (no connection, the 5 second deadline, a server fault),
and the identity `primitive.NewObjectID()` makes for a document without one. -/
structure Driver where
  fault : Option String
  newID : ObjectID
deriving DecidableEq

/-- Records a call in the collection's history. -/
def Collection.record (coll : Collection) (c : StoreCall) : Collection :=
  { coll with calls := coll.calls ++ [c] }

/-- The calls `coll.Find(ctx, bson.M{})` and `cur.All`: every record. -/
def Collection.Find (coll : Collection) (env : Driver) : Except String (List Book) × Collection :=
  match env.fault with
  | some err => (.error err, coll.record .Find)
  | none => (.ok coll.docs, coll.record .Find)

/-- The call `coll.InsertOne`: a document without `_id` gets the driver's new
identity; an identity the collection already holds is a duplicate key error.
The result is the `InsertedID`. -/
def Collection.InsertOne (coll : Collection) (env : Driver) (doc : Document) :
    Except String ObjectID × Collection :=
  match env.fault with
  | some err => (.error err, coll.record (.InsertOne doc))
  | none =>
    let id := doc._id.getD env.newID
    if id ∈ coll.ids then (.error "E11000 duplicate key error", coll.record (.InsertOne doc))
    else
      (.ok id,
        { docs := coll.docs ++ [{ ID := id, Title := doc.title, Author := doc.author,
                                  Price := doc.price, Stock := doc.stock }],
          calls := coll.calls ++ [.InsertOne doc] })

/-- The effect of `$set` on one record. -/
def SetDoc.apply (upd : SetDoc) (b : Book) : Book :=
  { b with Title := upd.title, Author := upd.author, Price := upd.price, Stock := upd.stock }

/-- Applies `f` to the first record with identity `id`. -/
def updateFirst (id : ObjectID) (f : Book → Book) : List Book → List Book
  | [] => []
  | b :: rest => if b.ID = id then f b :: rest else b :: updateFirst id f rest

/-- The call `coll.UpdateByID`: updates the first record whose `_id` is `id`.
The result is the `MatchedCount`. -/
def Collection.UpdateByID (coll : Collection) (env : Driver) (id : ObjectID) (upd : SetDoc) :
    Except String Nat × Collection :=
  match env.fault with
  | some err => (.error err, coll.record (.UpdateByID id upd))
  | none =>
    (.ok (if id ∈ coll.ids then 1 else 0),
      { docs := updateFirst id upd.apply coll.docs, calls := coll.calls ++ [.UpdateByID id upd] })

/-- The call `coll.DeleteOne` with the filter `_id = id`: removes the first
record whose `_id` is `id`. The result is the `DeletedCount`. -/
def Collection.DeleteOne (coll : Collection) (env : Driver) (id : ObjectID) :
    Except String Nat × Collection :=
  match env.fault with
  | some err => (.error err, coll.record (.DeleteOne id))
  | none =>
    (.ok (if id ∈ coll.ids then 1 else 0),
      { docs := coll.docs.eraseP (fun b => decide (b.ID = id)), calls := coll.calls ++ [.DeleteOne id] })

/-! ## The handlers -/

/-- The handler `health`. -/
def health (_r : Request) (coll : Collection) : Response × Collection :=
  (writeJSON 200 (.object [("status", "ok"), ("service", "catalog-service")]), coll)

/-- The handler `listBooks`. -/
def listBooks (env : Driver) (_r : Request) (coll : Collection) : Response × Collection :=
  match coll.Find env with
  | (.error err, coll1) => (http.Error err 500, coll1)
  | (.ok out, coll1) => (writeJSON 200 (.books out), coll1)

/-- The handler `createBook`. -/
def createBook (env : Driver) (r : Request) (coll : Collection) : Response × Collection :=
  match jsonDecode r.Body Book.zero with
  | .error err => (http.Error err 400, coll)
  | .ok b =>
    match coll.InsertOne env b.marshal with
    | (.error err, coll1) => (http.Error err 500, coll1)
    | (.ok id, coll1) =>
      (writeJSON 201 (.object [("message", "created"), ("id", id.Hex)]), coll1)

/-- The handler `updateBook`; `none` is a panic of the slice expression. -/
def updateBook (env : Driver) (r : Request) (coll : Collection) : Option (Response × Collection) :=
  match sliceFrom r.Path (len "/books/") with
  | none => none
  | some idHex =>
    match ObjectIDFromHex idHex with
    | none => some (http.Error "invalid id" 400, coll)
    | some id =>
      match jsonDecode r.Body Book.zero with
      | .error err => some (http.Error err 400, coll)
      | .ok b =>
        let upd : SetDoc := { title := b.Title, author := b.Author, price := b.Price, stock := b.Stock }
        match coll.UpdateByID env id upd with
        | (.error err, coll1) => some (http.Error err 500, coll1)
        | (.ok matchedCount, coll1) =>
          if matchedCount = 0 then some (http.Error "not found" 404, coll1)
          else some (writeJSON 200 (.object [("message", "updated")]), coll1)

/-- The handler `deleteBook`; `none` is a panic of the slice expression. -/
def deleteBook (env : Driver) (r : Request) (coll : Collection) : Option (Response × Collection) :=
  match sliceFrom r.Path (len "/books/") with
  | none => none
  | some idHex =>
    match ObjectIDFromHex idHex with
    | none => some (http.Error "invalid id" 400, coll)
    | some id =>
      match coll.DeleteOne env id with
      | (.error err, coll1) => some (http.Error err 500, coll1)
      | (.ok deletedCount, coll1) =>
        if deletedCount = 0 then some (http.Error "not found" 404, coll1)
        else some (writeJSON 200 (.object [("message", "deleted")]), coll1)

/-! ## Routing, as registered in `main` -/

/-- The closure registered for the pattern `/books`. -/
def booksHandler (env : Driver) (r : Request) (coll : Collection) : Response × Collection :=
  if r.Method = "GET" then listBooks env r coll
  else if r.Method = "POST" then createBook env r coll
  else (http.Error "method not allowed" 405, coll)

/-- The closure registered for the pattern `/books/`. -/
def booksIdHandler (env : Driver) (r : Request) (coll : Collection) :
    Option (Response × Collection) :=
  if r.Method = "PUT" then updateBook env r coll
  else if r.Method = "DELETE" then deleteBook env r coll
  else some (http.Error "method not allowed" 405, coll)

/-- The default mux with the three patterns of `main`: `/health` and `/books`
match exactly, `/books/` matches every path that begins with it, and the mux
itself answers any other path with `http.NotFound`. The result `none` is a
handler that panicked. (The mux redirects a path that is not in canonical
form instead of dispatching it; that is left out, it only takes paths away
from the handlers.) -/
def serve (env : Driver) (r : Request) (coll : Collection) : Option (Response × Collection) :=
  if r.Path = "/health" then some (health r coll)
  else if r.Path = "/books" then some (booksHandler env r coll)
  else if startsWith r.Path "/books/" then booksIdHandler env r coll
  else some (http.Error "404 page not found" 404, coll)

/-- The two kinds of reply: by `writeJSON` with 200 or 201, or by
`http.Error` with 400, 404, 405 or 500. -/
def Response.Typed (w : Response) : Prop :=
  (w.Get "Content-Type" = some "application/json" ∧ (w.status = 200 ∨ w.status = 201)) ∨
  (w.Get "Content-Type" = some "text/plain; charset=utf-8" ∧
    (w.status = 400 ∨ w.status = 404 ∨ w.status = 405 ∨ w.status = 500))

/-! ## Sample data -/

/-- A sample identity, `654a1f0c9b3e4d2a7c8f0011` in hex. -/
def idA : ObjectID := ⟨[0x65, 0x4a, 0x1f, 0x0c, 0x9b, 0x3e, 0x4d, 0x2a, 0x7c, 0x8f, 0x00, 0x11], rfl⟩

/-- A second sample identity, `0123456789abcdef01234567` in hex. -/
def idB : ObjectID := ⟨[0x01, 0x23, 0x45, 0x67, 0x89, 0xab, 0xcd, 0xef, 0x01, 0x23, 0x45, 0x67], rfl⟩

/-- A stored record with identity `idA`. -/
def dune : Book :=
  { ID := idA, Title := "Dune", Author := "Herbert", Price := ⟨4621813499897911378⟩, Stock := 5 }

/-- A stored record with identity `idB`. -/
def emma : Book :=
  { ID := idB, Title := "Emma", Author := "Austen", Price := ⟨4619567317775286272⟩, Stock := 2 }

/-- A collection of two records with no call made yet. -/
def shelf : Collection := { docs := [dune, emma], calls := [] }

/-- An empty collection. -/
def emptyShelf : Collection := { docs := [], calls := [] }

/-- A working store whose driver would next make the identity `idA`. -/
def storeUp : Driver := { fault := none, newID := idA }

/-- A third sample identity, `aabbccddeeff001122334455` in hex, held by no
sample record. -/
def idC : ObjectID := ⟨[0xaa, 0xbb, 0xcc, 0xdd, 0xee, 0xff, 0x00, 0x11, 0x22, 0x33, 0x44, 0x55], rfl⟩

/-- A working store whose driver would next make the identity `idC`. -/
def storeFresh : Driver := { fault := none, newID := idC }

/-- A store that cannot be reached. -/
def storeDown : Driver := { fault := some "server selection error", newID := idB }

/-- A JSON object with the four fields of the sample record and no `id`. -/
def duneFields : BookFields :=
  { id := none, title := some "Dune", author := some "Herbert",
    price := some ⟨4621813499897911378⟩, stock := some 5 }

/-! ## Lemmas on strings and routing -/

theorem len_books : len "/books/" = 7 := by decide

theorem sliceFrom_append (p sfx : String) : sliceFrom (p ++ sfx) (len p) = some sfx := by
  have h := String.extract_of_valid p.data sfx.data []
  simp only [List.append_nil] at h
  have hle : p.utf8ByteSize ≤ (p ++ sfx).utf8ByteSize := by
    simp [String.utf8ByteSize, String.append]
  have hend : (p ++ sfx).endPos = ⟨String.utf8Len p.data + String.utf8Len sfx.data⟩ := by
    simp [String.endPos, String.utf8ByteSize, String.append]
  have hcat : (p ++ sfx) = ⟨p.data ++ sfx.data⟩ := rfl
  unfold sliceFrom len
  rw [if_pos hle, hend, hcat]
  show some (String.extract ⟨p.data ++ sfx.data⟩ ⟨String.utf8Len p.data⟩ _) = _
  rw [h]

theorem startsWith_iff (path pat : String) :
    startsWith path pat = true ↔ ∃ sfx : String, path = pat ++ sfx := by
  unfold startsWith
  rw [List.isPrefixOf_iff_prefix]
  constructor
  · rintro ⟨t, ht⟩
    exact ⟨⟨t⟩, by ext1; simp [ht]⟩
  · rintro ⟨sfx, rfl⟩
    exact ⟨sfx.data, by simp⟩

theorem books_slash_ne_health (sfx : String) : "/books/" ++ sfx ≠ "/health" := by
  intro h
  have := congrArg String.data h
  simp at this

theorem books_slash_ne_books (sfx : String) : "/books/" ++ sfx ≠ "/books" := by
  intro h
  have := congrArg String.data h
  simp at this

theorem serve_health (env : Driver) (r : Request) (coll : Collection) (hp : r.Path = "/health") :
    serve env r coll = some (health r coll) := by
  simp [serve, hp]

theorem serve_books (env : Driver) (r : Request) (coll : Collection) (hp : r.Path = "/books") :
    serve env r coll = some (booksHandler env r coll) := by
  simp [serve, hp]

theorem serve_booksId (env : Driver) (r : Request) (coll : Collection) (sfx : String)
    (hp : r.Path = "/books/" ++ sfx) : serve env r coll = booksIdHandler env r coll := by
  have hs : startsWith ("/books/" ++ sfx) "/books/" = true := (startsWith_iff _ _).2 ⟨sfx, rfl⟩
  simp [serve, hp, books_slash_ne_health, books_slash_ne_books, hs]

theorem updateBook_eq (env : Driver) (r : Request) (coll : Collection) (sfx : String)
    (hp : r.Path = "/books/" ++ sfx) :
    updateBook env r coll =
      match ObjectIDFromHex sfx with
      | none => some (http.Error "invalid id" 400, coll)
      | some id =>
        match jsonDecode r.Body Book.zero with
        | .error err => some (http.Error err 400, coll)
        | .ok b =>
          match coll.UpdateByID env id
              { title := b.Title, author := b.Author, price := b.Price, stock := b.Stock } with
          | (.error err, coll1) => some (http.Error err 500, coll1)
          | (.ok matchedCount, coll1) =>
            if matchedCount = 0 then some (http.Error "not found" 404, coll1)
            else some (writeJSON 200 (.object [("message", "updated")]), coll1) := by
  unfold updateBook
  rw [hp, sliceFrom_append]

theorem deleteBook_eq (env : Driver) (r : Request) (coll : Collection) (sfx : String)
    (hp : r.Path = "/books/" ++ sfx) :
    deleteBook env r coll =
      match ObjectIDFromHex sfx with
      | none => some (http.Error "invalid id" 400, coll)
      | some id =>
        match coll.DeleteOne env id with
        | (.error err, coll1) => some (http.Error err 500, coll1)
        | (.ok deletedCount, coll1) =>
          if deletedCount = 0 then some (http.Error "not found" 404, coll1)
          else some (writeJSON 200 (.object [("message", "deleted")]), coll1) := by
  unfold deleteBook
  rw [hp, sliceFrom_append]

theorem typed_writeJSON_200 (v : Payload) : (writeJSON 200 v).Typed :=
  Or.inl ⟨rfl, Or.inl rfl⟩

theorem typed_writeJSON_201 (v : Payload) : (writeJSON 201 v).Typed :=
  Or.inl ⟨rfl, Or.inr rfl⟩

theorem typed_error_400 (msg : String) : (http.Error msg 400).Typed :=
  Or.inr ⟨rfl, Or.inl rfl⟩

theorem typed_error_404 (msg : String) : (http.Error msg 404).Typed :=
  Or.inr ⟨rfl, Or.inr (Or.inl rfl)⟩

theorem typed_error_405 (msg : String) : (http.Error msg 405).Typed :=
  Or.inr ⟨rfl, Or.inr (Or.inr (Or.inl rfl))⟩

theorem typed_error_500 (msg : String) : (http.Error msg 500).Typed :=
  Or.inr ⟨rfl, Or.inr (Or.inr (Or.inr rfl))⟩

theorem listBooks_typed (env : Driver) (r : Request) (coll : Collection) :
    (listBooks env r coll).1.Typed := by
  unfold listBooks Collection.Find
  cases env.fault <;> simp [typed_writeJSON_200, typed_error_500]

theorem createBook_typed (env : Driver) (r : Request) (coll : Collection) :
    (createBook env r coll).1.Typed := by
  unfold createBook Collection.InsertOne
  cases jsonDecode r.Body Book.zero with
  | error err => simp [typed_error_400]
  | ok b =>
    cases env.fault with
    | some err => simp [typed_error_500]
    | none =>
      by_cases hm : (b.marshal._id.getD env.newID) ∈ coll.ids <;>
        simp [hm, typed_error_500, typed_writeJSON_201]

theorem updateBook_typed (env : Driver) (r : Request) (coll : Collection) (sfx : String)
    (hp : r.Path = "/books/" ++ sfx) :
    ∃ w coll1, updateBook env r coll = some (w, coll1) ∧ w.Typed := by
  rw [updateBook_eq env r coll sfx hp]
  unfold Collection.UpdateByID
  cases ObjectIDFromHex sfx with
  | none => simp [typed_error_400]
  | some id =>
    cases jsonDecode r.Body Book.zero with
    | error err => simp [typed_error_400]
    | ok b =>
      cases env.fault with
      | some err => simp [typed_error_500]
      | none => by_cases hm : id ∈ coll.ids <;> simp [hm, typed_error_404, typed_writeJSON_200]

theorem deleteBook_typed (env : Driver) (r : Request) (coll : Collection) (sfx : String)
    (hp : r.Path = "/books/" ++ sfx) :
    ∃ w coll1, deleteBook env r coll = some (w, coll1) ∧ w.Typed := by
  rw [deleteBook_eq env r coll sfx hp]
  unfold Collection.DeleteOne
  cases ObjectIDFromHex sfx with
  | none => simp [typed_error_400]
  | some id =>
    cases env.fault with
    | some err => simp [typed_error_500]
    | none => by_cases hm : id ∈ coll.ids <;> simp [hm, typed_error_404, typed_writeJSON_200]

theorem serve_typed (env : Driver) (r : Request) (coll : Collection)
    (hroute : r.Path = "/health" ∨ r.Path = "/books" ∨ startsWith r.Path "/books/" = true) :
    ∃ w coll1, serve env r coll = some (w, coll1) ∧ w.Typed := by
  rcases hroute with hp | hp | hp
  · exact ⟨_, _, serve_health env r coll hp, typed_writeJSON_200 _⟩
  · have ht : (booksHandler env r coll).1.Typed := by
      unfold booksHandler
      split
      · exact listBooks_typed env r coll
      · split
        · exact createBook_typed env r coll
        · exact typed_error_405 _
    exact ⟨_, _, serve_books env r coll hp, ht⟩
  · obtain ⟨sfx, hs⟩ := (startsWith_iff _ _).1 hp
    rw [serve_booksId env r coll sfx hs]
    unfold booksIdHandler
    split
    · exact updateBook_typed env r coll sfx hs
    · split
      · exact deleteBook_typed env r coll sfx hs
      · exact ⟨_, _, rfl, typed_error_405 _⟩

/-! ## Lemmas on the store and on identifiers -/

theorem updateFirst_of_not_mem (id : ObjectID) (f : Book → Book) (docs : List Book)
    (h : id ∉ docs.map Book.ID) : updateFirst id f docs = docs := by
  induction docs with
  | nil => rfl
  | cons b rest ih =>
    simp only [List.map_cons, List.mem_cons, not_or] at h
    have hne : b.ID ≠ id := fun e => h.1 e.symm
    simp [updateFirst, hne, ih h.2]

theorem updateFirst_eq_map (id : ObjectID) (f : Book → Book) (docs : List Book)
    (hnd : (docs.map Book.ID).Nodup) :
    updateFirst id f docs = docs.map (fun b => if b.ID = id then f b else b) := by
  induction docs with
  | nil => rfl
  | cons b rest ih =>
    simp only [List.map_cons, List.nodup_cons] at hnd
    by_cases hb : b.ID = id
    · have hrest : rest.map (fun x => if x.ID = id then f x else x) = rest := by
        conv_rhs => rw [← List.map_id rest]
        apply List.map_congr_left
        intro x hx
        have : x.ID ≠ id := by
          intro e
          exact hnd.1 (by rw [hb, ← e]; exact List.mem_map_of_mem _ hx)
        simp [this]
      simp [updateFirst, hb, hrest]
    · simp [updateFirst, hb, ih hnd.2]

theorem eraseP_of_not_mem (id : ObjectID) (docs : List Book) (h : id ∉ docs.map Book.ID) :
    docs.eraseP (fun b => decide (b.ID = id)) = docs := by
  apply List.eraseP_of_forall_not
  intro b hb
  have : b.ID ≠ id := fun e => h (by rw [← e]; exact List.mem_map_of_mem _ hb)
  simp [this]

theorem eraseP_eq_filter (id : ObjectID) (docs : List Book) (hnd : (docs.map Book.ID).Nodup) :
    docs.eraseP (fun b => decide (b.ID = id)) = docs.filter (fun b => decide (b.ID ≠ id)) := by
  induction docs with
  | nil => rfl
  | cons b rest ih =>
    simp only [List.map_cons, List.nodup_cons] at hnd
    by_cases hb : b.ID = id
    · have hrest : rest.filter (fun x => decide (x.ID ≠ id)) = rest := by
        apply List.filter_eq_self.2
        intro x hx
        have : x.ID ≠ id := by
          intro e
          exact hnd.1 (by rw [hb, ← e]; exact List.mem_map_of_mem _ hx)
        simp [this]
      have hrest2 := hrest.symm
      simp only [ne_eq, decide_not] at hrest2
      simpa [List.eraseP_cons, hb] using hrest2
    · simp [List.eraseP_cons, hb, ih hnd.2]

theorem not_mem_ids_filter (id : ObjectID) (docs : List Book) :
    id ∉ (docs.filter (fun b => decide (b.ID ≠ id))).map Book.ID := by
  intro h
  obtain ⟨b, hb, hid⟩ := List.mem_map.1 h
  have := (List.mem_filter.1 hb).2
  simp [hid] at this

theorem hexEncode_length (bs : List (Fin 256)) : (hexEncode bs).length = 2 * bs.length := by
  induction bs with
  | nil => rfl
  | cons b rest ih => simp [hexEncode, ih]; omega

theorem hexDigit_fin (n : Fin 16) :
    hexDigit n.val ∈ hextable ∧ (hexDigit n.val).utf8Size = 1 ∧
      fromHexChar (hexDigit n.val) = some n.val := by
  revert n; decide

theorem hexDigit_lt (n : Nat) (h : n < 16) :
    hexDigit n ∈ hextable ∧ (hexDigit n).utf8Size = 1 ∧ fromHexChar (hexDigit n) = some n :=
  hexDigit_fin ⟨n, h⟩

theorem hexEncode_digits (bs : List (Fin 256)) : ∀ c ∈ hexEncode bs, c ∈ hextable := by
  induction bs with
  | nil => intro c hc; cases hc
  | cons b rest ih =>
    intro c hc
    simp only [hexEncode, List.mem_cons] at hc
    rcases hc with rfl | rfl | hc
    · exact (hexDigit_lt _ (by omega)).1
    · exact (hexDigit_lt _ (by omega)).1
    · exact ih c hc

theorem hexEncode_utf8Len (bs : List (Fin 256)) :
    String.utf8Len (hexEncode bs) = 2 * bs.length := by
  induction bs with
  | nil => rfl
  | cons b rest ih =>
    have h1 := (hexDigit_lt (b.val / 16) (by omega)).2.1
    have h2 := (hexDigit_lt (b.val % 16) (by omega)).2.1
    simp only [hexEncode, String.utf8Len_cons, ih, h1, h2, List.length_cons]
    omega

theorem hexDecode_hexEncode (bs : List (Fin 256)) : hexDecode (hexEncode bs) = some bs := by
  induction bs with
  | nil => rfl
  | cons b rest ih =>
    have h1 := (hexDigit_lt (b.val / 16) (by omega)).2.2
    have h2 := (hexDigit_lt (b.val % 16) (by omega)).2.2
    have hb : (Fin.ofNat (b.val / 16 * 16 + b.val % 16) : Fin 256) = b := by
      apply Fin.ext
      show (b.val / 16 * 16 + b.val % 16) % 256 = b.val
      omega
    simp only [hexEncode, hexDecode, h1, h2, ih, hb]

theorem ObjectID.Hex_length (id : ObjectID) : id.Hex.length = 24 := by
  show (hexEncode id.bytes).length = 24
  rw [hexEncode_length, id.size]

theorem ObjectIDFromHex_Hex (id : ObjectID) : ObjectIDFromHex id.Hex = some id := by
  have hlen : id.Hex.utf8ByteSize = 24 := by
    show String.utf8Len (hexEncode id.bytes) = 24
    rw [hexEncode_utf8Len, id.size]
  have hdec : hexDecode id.Hex.data = some id.bytes := hexDecode_hexEncode id.bytes
  unfold ObjectIDFromHex
  simp [hlen, hdec, id.size]

theorem serve_delete (env : Driver) (r : Request) (coll : Collection) (sfx : String)
    (id : ObjectID) (hp : r.Path = "/books/" ++ sfx) (hm : r.Method = "DELETE")
    (hid : ObjectIDFromHex sfx = some id) (hup : env.fault = none) :
    serve env r coll =
      some (if id ∈ coll.ids then writeJSON 200 (.object [("message", "deleted")])
            else http.Error "not found" 404,
        { docs := coll.docs.eraseP (fun b => decide (b.ID = id)),
          calls := coll.calls ++ [.DeleteOne id] }) := by
  have hne : r.Method ≠ "PUT" := by rw [hm]; decide
  rw [serve_booksId env r coll sfx hp]
  unfold booksIdHandler
  rw [if_neg hne, if_pos hm, deleteBook_eq env r coll sfx hp, hid]
  unfold Collection.DeleteOne
  rw [hup]
  by_cases hmem : id ∈ coll.ids <;> simp [hmem]

theorem serve_update (env : Driver) (r : Request) (coll : Collection) (sfx : String)
    (id : ObjectID) (b : Book) (hp : r.Path = "/books/" ++ sfx) (hm : r.Method = "PUT")
    (hid : ObjectIDFromHex sfx = some id) (hdec : jsonDecode r.Body Book.zero = .ok b)
    (hup : env.fault = none) :
    serve env r coll =
      some (if id ∈ coll.ids then writeJSON 200 (.object [("message", "updated")])
            else http.Error "not found" 404,
        { docs := updateFirst id
            (SetDoc.apply { title := b.Title, author := b.Author, price := b.Price, stock := b.Stock })
            coll.docs,
          calls := coll.calls ++
            [.UpdateByID id { title := b.Title, author := b.Author, price := b.Price, stock := b.Stock }] }) := by
  rw [serve_booksId env r coll sfx hp]
  unfold booksIdHandler
  rw [if_pos hm, updateBook_eq env r coll sfx hp, hid]
  simp only [hdec]
  unfold Collection.UpdateByID
  rw [hup]
  by_cases hmem : id ∈ coll.ids <;> simp [hmem]

theorem serve_create (env : Driver) (r : Request) (coll : Collection) (b : Book)
    (hp : r.Path = "/books") (hm : r.Method = "POST")
    (hdec : jsonDecode r.Body Book.zero = .ok b) :
    serve env r coll =
      some (match coll.InsertOne env b.marshal with
        | (.error err, coll1) => (http.Error err 500, coll1)
        | (.ok id, coll1) =>
          (writeJSON 201 (.object [("message", "created"), ("id", id.Hex)]), coll1)) := by
  have hne : r.Method ≠ "GET" := by rw [hm]; decide
  rw [serve_books env r coll hp]
  unfold booksHandler createBook
  rw [if_neg hne, if_pos hm]
  simp only [hdec]

theorem serve_list (env : Driver) (r : Request) (coll : Collection)
    (hp : r.Path = "/books") (hm : r.Method = "GET") (hup : env.fault = none) :
    serve env r coll =
      some (writeJSON 200 (.books coll.docs), { docs := coll.docs, calls := coll.calls ++ [.Find] }) := by
  rw [serve_books env r coll hp]
  unfold booksHandler listBooks Collection.Find
  rw [if_pos hm, hup]
  rfl

theorem marshal_eq (b : Book) :
    b.marshal = { _id := if b.ID = NilObjectID then none else some b.ID, title := b.Title,
                  author := b.Author, price := b.Price, stock := b.Stock } := by
  by_cases hz : b.ID = NilObjectID <;> simp [Book.marshal, ObjectID.IsZero, hz]

theorem create_effect (env : Driver) (r : Request) (coll : Collection) (b : Book)
    (hp : r.Path = "/books") (hm : r.Method = "POST")
    (hdec : jsonDecode r.Body Book.zero = .ok b) (hup : env.fault = none) :
    ∃ w coll1,
      serve env r coll = some (w, coll1) ∧
      coll1.calls = coll.calls ++ [.InsertOne b.marshal] ∧
      (b.marshal._id.getD env.newID ∉ coll.ids →
        w = writeJSON 201
          (.object [("message", "created"), ("id", (b.marshal._id.getD env.newID).Hex)]) ∧
        coll1.docs = coll.docs ++
          [{ ID := b.marshal._id.getD env.newID, Title := b.Title, Author := b.Author,
             Price := b.Price, Stock := b.Stock }]) ∧
      (b.marshal._id.getD env.newID ∈ coll.ids → w.status = 500 ∧ coll1.docs = coll.docs) := by
  have h1 := serve_create env r coll b hp hm hdec
  unfold Collection.InsertOne at h1
  rw [hup] at h1
  by_cases hmem : b.marshal._id.getD env.newID ∈ coll.ids
  · simp only [if_pos hmem] at h1
    exact ⟨_, _, h1, rfl, fun hn => absurd hmem hn, fun _ => ⟨rfl, rfl⟩⟩
  · simp only [if_neg hmem] at h1
    exact ⟨_, _, h1, rfl, fun _ => ⟨rfl, rfl⟩, fun hn => absurd hn hmem⟩

theorem updateFirst_ids (id : ObjectID) (f : Book → Book) (docs : List Book)
    (hf : ∀ b, (f b).ID = b.ID) : (updateFirst id f docs).map Book.ID = docs.map Book.ID := by
  induction docs with
  | nil => rfl
  | cons b rest ih =>
    by_cases hb : b.ID = id
    · simp [updateFirst, hb, hf]
    · simp [updateFirst, hb, ih]

/-- Unique identities are an invariant of the service: whatever the request
and whatever the store call ends in, a collection with unique `_id` is left
with unique `_id`. -/
theorem serve_preserves_WF (env : Driver) (r : Request) (coll coll1 : Collection) (w : Response)
    (hwf : coll.WF) (h : serve env r coll = some (w, coll1)) : coll1.WF := by
  have key : coll1.docs = coll.docs ∨
      (∃ b : Book, b.ID ∉ coll.ids ∧ coll1.docs = coll.docs ++ [b]) ∨
      (∃ id f, (∀ b : Book, (f b).ID = b.ID) ∧ coll1.docs = updateFirst id f coll.docs) ∨
      (∃ id : ObjectID, coll1.docs = coll.docs.eraseP (fun b => decide (b.ID = id))) := by
    unfold serve at h
    split at h
    · simp only [health, Option.some.injEq, Prod.mk.injEq] at h
      exact Or.inl (by rw [← h.2])
    · split at h
      · unfold booksHandler at h
        split at h
        · unfold listBooks Collection.Find at h
          cases hf : env.fault <;> simp [hf, Collection.record] at h <;>
            exact Or.inl (by rw [← h.2])
        · split at h
          · unfold createBook Collection.InsertOne at h
            cases hd : jsonDecode r.Body Book.zero with
            | error err =>
              simp [hd] at h
              exact Or.inl (by rw [← h.2])
            | ok b =>
              cases hf : env.fault with
              | some err =>
                simp [hd, hf, Collection.record] at h
                exact Or.inl (by rw [← h.2])
              | none =>
                by_cases hmem : b.marshal._id.getD env.newID ∈ coll.ids
                · simp [hd, hf, hmem, Collection.record] at h
                  exact Or.inl (by rw [← h.2])
                · simp [hd, hf, hmem] at h
                  exact Or.inr (Or.inl ⟨_, hmem, by rw [← h.2]⟩)
          · simp at h
            exact Or.inl (by rw [← h.2])
      · split at h
        · rename_i hsw
          obtain ⟨sfx, hs⟩ := (startsWith_iff _ _).1 hsw
          unfold booksIdHandler at h
          split at h
          · rw [updateBook_eq env r coll sfx hs] at h
            unfold Collection.UpdateByID at h
            cases hid : ObjectIDFromHex sfx with
            | none =>
              simp [hid] at h
              exact Or.inl (by rw [← h.2])
            | some id =>
              cases hd : jsonDecode r.Body Book.zero with
              | error err =>
                simp [hid, hd] at h
                exact Or.inl (by rw [← h.2])
              | ok b =>
                cases hf : env.fault with
                | some err =>
                  simp [hid, hd, hf, Collection.record] at h
                  exact Or.inl (by rw [← h.2])
                | none =>
                  refine Or.inr (Or.inr (Or.inl ⟨id,
                    SetDoc.apply
                      { title := b.Title, author := b.Author, price := b.Price, stock := b.Stock },
                    fun _ => rfl, ?_⟩))
                  by_cases hmem : id ∈ coll.ids <;> simp [hid, hd, hf, hmem] at h <;>
                    rw [← h.2]
          · split at h
            · rw [deleteBook_eq env r coll sfx hs] at h
              unfold Collection.DeleteOne at h
              cases hid : ObjectIDFromHex sfx with
              | none =>
                simp [hid] at h
                exact Or.inl (by rw [← h.2])
              | some id =>
                cases hf : env.fault with
                | some err =>
                  simp [hid, hf, Collection.record] at h
                  exact Or.inl (by rw [← h.2])
                | none =>
                  refine Or.inr (Or.inr (Or.inr ⟨id, ?_⟩))
                  by_cases hmem : id ∈ coll.ids <;> simp [hid, hf, hmem] at h <;> rw [← h.2]
            · simp at h
              exact Or.inl (by rw [← h.2])
        · simp at h
          exact Or.inl (by rw [← h.2])
  unfold Collection.WF Collection.ids at *
  rcases key with hk | ⟨b, hb, hk⟩ | ⟨id, f, hf, hk⟩ | ⟨id, hk⟩
  · rw [hk]; exact hwf
  · rw [hk, List.map_append, List.map_singleton]
    exact List.Nodup.append hwf (List.nodup_singleton _)
      (by simpa [List.disjoint_singleton] using hb)
  · rw [hk, updateFirst_ids id f coll.docs hf]; exact hwf
  · rw [hk]
    exact List.Nodup.sublist (List.Sublist.map _ (List.eraseP_sublist _)) hwf

/-! ## Claims -/

/-- C9: the health check has no failure path and does not depend on the
store. Every request on `/health`, whatever its method and whatever the store
(reachable or not), is answered 200 with the JSON object
`status = ok, service = catalog-service`; the collection is returned as it
was, with no call recorded; and two runs that differ only in the store give
the same response. -/
theorem C9_health_ignores_store (env env2 : Driver) (r : Request) (coll coll2 : Collection)
    (hp : r.Path = "/health") :
    health r coll =
        (⟨[("Content-Type", "application/json")], 200,
          .json (.object [("status", "ok"), ("service", "catalog-service")])⟩, coll) ∧
      serve env r coll = some (health r coll) ∧
      (serve env r coll).map Prod.fst = (serve env2 r coll2).map Prod.fst := by
  refine ⟨rfl, serve_health env r coll hp, ?_⟩
  rw [serve_health env r coll hp, serve_health env2 r coll2 hp]
  rfl

/-- Witness of C9: `POST /health` with an unreachable store, against a
reachable store holding other records. -/
theorem C9_health_ignores_store_witness :
    health ⟨"POST", "/health", .malformed "EOF"⟩ emptyShelf =
        (⟨[("Content-Type", "application/json")], 200,
          .json (.object [("status", "ok"), ("service", "catalog-service")])⟩, emptyShelf) ∧
      serve storeDown ⟨"POST", "/health", .malformed "EOF"⟩ emptyShelf =
        some (health ⟨"POST", "/health", .malformed "EOF"⟩ emptyShelf) ∧
      (serve storeDown ⟨"POST", "/health", .malformed "EOF"⟩ emptyShelf).map Prod.fst =
        (serve storeUp ⟨"POST", "/health", .malformed "EOF"⟩ shelf).map Prod.fst :=
  C9_health_ignores_store storeDown storeUp ⟨"POST", "/health", .malformed "EOF"⟩ emptyShelf shelf rfl

/-- C10: identifier extraction never indexes out of range. For every path
that begins with `/books/` the slice `Path[len("/books/"):]` is within bounds
and is the path without those 7 bytes, so neither `updateBook` nor
`deleteBook` panics and the request is served by the `/books/` closure with
a reply; for the path `/books/` itself the slice is the empty string and both
handlers answer 400 "invalid id". -/
theorem C10_identifier_slice_in_bounds (env : Driver) (r : Request) (coll : Collection)
    (h : startsWith r.Path "/books/" = true) :
    len "/books/" = 7 ∧ len "/books/" ≤ len r.Path ∧
      (∃ sfx, r.Path = "/books/" ++ sfx ∧ sliceFrom r.Path (len "/books/") = some sfx) ∧
      updateBook env r coll ≠ none ∧ deleteBook env r coll ≠ none ∧
      serve env r coll = booksIdHandler env r coll ∧ serve env r coll ≠ none ∧
      (r.Path = "/books/" →
        sliceFrom r.Path (len "/books/") = some "" ∧
        updateBook env r coll = some (http.Error "invalid id" 400, coll) ∧
        deleteBook env r coll = some (http.Error "invalid id" 400, coll)) := by
  obtain ⟨sfx, hs⟩ := (startsWith_iff _ _).1 h
  have hslice : sliceFrom r.Path (len "/books/") = some sfx := by rw [hs, sliceFrom_append]
  have hupd : updateBook env r coll ≠ none := by
    obtain ⟨w, c, hw, _⟩ := updateBook_typed env r coll sfx hs
    rw [hw]; simp
  have hdel : deleteBook env r coll ≠ none := by
    obtain ⟨w, c, hw, _⟩ := deleteBook_typed env r coll sfx hs
    rw [hw]; simp
  have hserve : serve env r coll ≠ none := by
    rw [serve_booksId env r coll sfx hs]
    unfold booksIdHandler
    split
    · exact hupd
    · split
      · exact hdel
      · simp
  refine ⟨len_books, ?_, ⟨sfx, hs, hslice⟩, hupd, hdel, serve_booksId env r coll sfx hs, hserve, ?_⟩
  · unfold sliceFrom at hslice
    by_contra hlt
    rw [if_neg hlt] at hslice
    cases hslice
  · intro hroot
    have hroot2 : r.Path = "/books/" ++ "" := by rw [hroot]; rfl
    have hnone : ObjectIDFromHex "" = none := by decide
    refine ⟨by rw [hroot2, sliceFrom_append], ?_, ?_⟩
    · rw [updateBook_eq env r coll "" hroot2, hnone]
    · rw [deleteBook_eq env r coll "" hroot2, hnone]

/-- Witness of C10: the path `/books/` itself. -/
theorem C10_identifier_slice_in_bounds_witness :
    sliceFrom "/books/" (len "/books/") = some "" ∧
      updateBook storeUp ⟨"PUT", "/books/", .object duneFields⟩ shelf =
        some (http.Error "invalid id" 400, shelf) ∧
      deleteBook storeUp ⟨"PUT", "/books/", .object duneFields⟩ shelf =
        some (http.Error "invalid id" 400, shelf) :=
  (C10_identifier_slice_in_bounds storeUp ⟨"PUT", "/books/", .object duneFields⟩ shelf
    (by decide)).2.2.2.2.2.2.2 rfl

/-- C1: a request with a client input error is answered 400 and never reaches
the store. The cases are an update or delete whose path suffix after
`/books/` is no identity, and a create or update whose body does not decode.
The reply is `http.Error msg 400`, the collection is returned as it was (no
call, no change), and when the identifier is malformed the message is
"invalid id" whatever the body is. -/
theorem C1_client_input_error (env : Driver) (r : Request) (coll : Collection) (sfx : String)
    (h : (r.Path = "/books/" ++ sfx ∧ (r.Method = "PUT" ∨ r.Method = "DELETE") ∧
            ObjectIDFromHex sfx = none) ∨
         (r.Path = "/books/" ++ sfx ∧ r.Method = "PUT" ∧
            ∃ err, jsonDecode r.Body Book.zero = .error err) ∨
         (r.Path = "/books" ∧ r.Method = "POST" ∧
            ∃ err, jsonDecode r.Body Book.zero = .error err)) :
    ∃ msg, serve env r coll = some (http.Error msg 400, coll) ∧
      (r.Path = "/books/" ++ sfx → ObjectIDFromHex sfx = none → msg = "invalid id") := by
  rcases h with ⟨hp, hm, hid⟩ | ⟨hp, hm, err, hdec⟩ | ⟨hp, hm, err, hdec⟩
  · refine ⟨"invalid id", ?_, fun _ _ => rfl⟩
    rw [serve_booksId env r coll sfx hp]
    unfold booksIdHandler
    rcases hm with hm | hm
    · rw [if_pos hm, updateBook_eq env r coll sfx hp, hid]
    · have hne : r.Method ≠ "PUT" := by rw [hm]; decide
      rw [if_neg hne, if_pos hm, deleteBook_eq env r coll sfx hp, hid]
  · rw [serve_booksId env r coll sfx hp]
    unfold booksIdHandler
    rw [if_pos hm, updateBook_eq env r coll sfx hp]
    cases hid : ObjectIDFromHex sfx with
    | none => exact ⟨"invalid id", rfl, fun _ _ => rfl⟩
    | some id =>
      refine ⟨err, ?_, fun _ hn => ?_⟩
      · simp only [hdec]
      · cases hn
  · refine ⟨err, ?_, fun hp2 _ => ?_⟩
    · have hne : r.Method ≠ "GET" := by rw [hm]; decide
      rw [serve_books env r coll hp]
      unfold booksHandler createBook
      rw [if_neg hne, if_pos hm]
      simp only [hdec]
    · rw [hp] at hp2
      exact absurd hp2.symm (books_slash_ne_books sfx)

/-- Witness of C1: an update whose identifier and body are both malformed. -/
theorem C1_client_input_error_witness :
    ∃ msg, serve storeUp ⟨"PUT", "/books/not-an-id", .malformed "unexpected EOF"⟩ shelf =
        some (http.Error msg 400, shelf) ∧
      ("/books/not-an-id" = "/books/" ++ "not-an-id" → ObjectIDFromHex "not-an-id" = none →
        msg = "invalid id") :=
  C1_client_input_error storeUp ⟨"PUT", "/books/not-an-id", .malformed "unexpected EOF"⟩ shelf
    "not-an-id" (Or.inl ⟨by decide, Or.inl rfl, by decide⟩)

/-- C8, as the code has it: a method that has no case in the closure of its
path is answered 405 "method not allowed" and the collection is returned as
it was, with no call recorded. That is any method other than GET and POST on
`/books`, and any method other than PUT and DELETE on a path that begins with
`/books/`, whatever the suffix is: the method is looked at before the
identifier. The `/health` handler has no method check: it answers every
method with 200. -/
theorem C8_method_not_allowed (env : Driver) (r : Request) (coll : Collection) (sfx : String)
    (h : (r.Path = "/books" ∧ r.Method ≠ "GET" ∧ r.Method ≠ "POST") ∨
         (r.Path = "/books/" ++ sfx ∧ r.Method ≠ "PUT" ∧ r.Method ≠ "DELETE")) :
    serve env r coll = some (http.Error "method not allowed" 405, coll) ∧
      (http.Error "method not allowed" 405).status = 405 ∧
      ∀ r2 : Request, r2.Path = "/health" →
        ∃ w, serve env r2 coll = some (w, coll) ∧ w.status = 200 := by
  refine ⟨?_, rfl, fun r2 hp2 => ⟨_, serve_health env r2 coll hp2, rfl⟩⟩
  rcases h with ⟨hp, hg, hpost⟩ | ⟨hp, hput, hdel⟩
  · rw [serve_books env r coll hp]
    unfold booksHandler
    rw [if_neg hg, if_neg hpost]
  · rw [serve_booksId env r coll sfx hp]
    unfold booksIdHandler
    rw [if_neg hput, if_neg hdel]

/-- Witness of C8: `GET /books/not-an-id` is answered 405, not 400. -/
theorem C8_method_not_allowed_witness :
    serve storeUp ⟨"GET", "/books/not-an-id", .malformed "EOF"⟩ shelf =
        some (http.Error "method not allowed" 405, shelf) ∧
      (http.Error "method not allowed" 405).status = 405 ∧
      ∀ r2 : Request, r2.Path = "/health" →
        ∃ w, serve storeUp r2 shelf = some (w, shelf) ∧ w.status = 200 :=
  C8_method_not_allowed storeUp ⟨"GET", "/books/not-an-id", .malformed "EOF"⟩ shelf "not-an-id"
    (Or.inr ⟨by decide, by decide, by decide⟩)

/-- Counterexample to C8 as stated: `POST /health`, a method other than GET
on `/health`, is answered 200 and not 405. -/
theorem C8_counterexample_post_health :
    serve storeUp ⟨"POST", "/health", .malformed "EOF"⟩ shelf =
        some (writeJSON 200 (.object [("status", "ok"), ("service", "catalog-service")]), shelf) ∧
      (writeJSON 200 (.object [("status", "ok"), ("service", "catalog-service")])).status ≠ 405 := by
  decide

/-- C7, as the code has it: on `/health`, `/books` and every path that begins
with `/books/`, a reply is written either by `writeJSON` or by `http.Error`.
The replies with status 200 or 201 carry `Content-Type: application/json`;
the replies with status 400, 404, 405 or 500 carry
`Content-Type: text/plain; charset=utf-8`; and there is no other status. -/
theorem C7_content_type_by_outcome (env : Driver) (r : Request) (coll : Collection)
    (hroute : r.Path = "/health" ∨ r.Path = "/books" ∨ startsWith r.Path "/books/" = true) :
    ∃ w coll1, serve env r coll = some (w, coll1) ∧
      (w.status = 200 ∨ w.status = 201 → w.Get "Content-Type" = some "application/json") ∧
      (w.status = 400 ∨ w.status = 404 ∨ w.status = 405 ∨ w.status = 500 →
        w.Get "Content-Type" = some "text/plain; charset=utf-8") ∧
      (w.status = 200 ∨ w.status = 201 ∨ w.status = 400 ∨ w.status = 404 ∨ w.status = 405 ∨
        w.status = 500) := by
  obtain ⟨w, coll1, hw, ht⟩ := serve_typed env r coll hroute
  refine ⟨w, coll1, hw, ?_, ?_, ?_⟩
  · intro hs
    rcases ht with ⟨hct, _⟩ | ⟨_, he⟩
    · exact hct
    · omega
  · intro hs
    rcases ht with ⟨_, hj⟩ | ⟨hct, _⟩
    · omega
    · exact hct
  · rcases ht with ⟨_, hj⟩ | ⟨_, he⟩ <;> omega

/-- Witness of C7: listing the books of a store that cannot be reached. -/
theorem C7_content_type_by_outcome_witness :
    ∃ w coll1, serve storeDown ⟨"GET", "/books", .malformed "EOF"⟩ shelf = some (w, coll1) ∧
      (w.status = 200 ∨ w.status = 201 → w.Get "Content-Type" = some "application/json") ∧
      (w.status = 400 ∨ w.status = 404 ∨ w.status = 405 ∨ w.status = 500 →
        w.Get "Content-Type" = some "text/plain; charset=utf-8") ∧
      (w.status = 200 ∨ w.status = 201 ∨ w.status = 400 ∨ w.status = 404 ∨ w.status = 405 ∨
        w.status = 500) :=
  C7_content_type_by_outcome storeDown ⟨"GET", "/books", .malformed "EOF"⟩ shelf
    (Or.inr (Or.inl rfl))

/-- Counterexample to C7 as stated: `DELETE /books/not-an-id` is answered 400
with `Content-Type: text/plain; charset=utf-8`, not `application/json`. -/
theorem C7_counterexample_error_is_text :
    (serve storeUp ⟨"DELETE", "/books/not-an-id", .malformed "EOF"⟩ shelf).map
        (fun p => (p.1.status, p.1.Get "Content-Type")) =
        some (400, some "text/plain; charset=utf-8") ∧
      (some "text/plain; charset=utf-8" : Option String) ≠ some "application/json" := by
  decide

/-- C4: with the store answering, an update (with a body that decodes) or a
delete whose identifier is well formed but is the identity of no record is
answered 404 "not found" and the records of the collection stay as they
were. When a record with that identity exists, an update is answered 200
"updated" whatever the submitted fields are, also when they equal the stored
ones: the 404 depends on the matched count only. -/
theorem C4_unassigned_identifier (env : Driver) (r : Request) (coll : Collection) (sfx : String)
    (id : ObjectID) (hp : r.Path = "/books/" ++ sfx) (hid : ObjectIDFromHex sfx = some id)
    (hup : env.fault = none)
    (hm : r.Method = "DELETE" ∨
      (r.Method = "PUT" ∧ ∃ b, jsonDecode r.Body Book.zero = .ok b)) :
    (id ∉ coll.ids →
      ∃ coll1, serve env r coll = some (http.Error "not found" 404, coll1) ∧
        (http.Error "not found" 404).status = 404 ∧ coll1.docs = coll.docs) ∧
    (id ∈ coll.ids → r.Method = "PUT" →
      ∃ coll1, serve env r coll = some (writeJSON 200 (.object [("message", "updated")]), coll1)) := by
  constructor
  · intro hmem
    rcases hm with hm | ⟨hm, b, hdec⟩
    · have h1 := serve_delete env r coll sfx id hp hm hid hup
      rw [if_neg hmem] at h1
      exact ⟨_, h1, rfl, eraseP_of_not_mem id coll.docs hmem⟩
    · have h1 := serve_update env r coll sfx id b hp hm hid hdec hup
      rw [if_neg hmem] at h1
      exact ⟨_, h1, rfl, updateFirst_of_not_mem id _ coll.docs hmem⟩
  · intro hmem hput
    rcases hm with hm | ⟨hm, b, hdec⟩
    · rw [hput] at hm
      exact absurd hm (by decide)
    · have h1 := serve_update env r coll sfx id b hp hm hid hdec hup
      rw [if_pos hmem] at h1
      exact ⟨_, h1⟩

/-- Witness of C4: deleting an identity the shelf does not hold, and updating
a record with the fields it already has. -/
theorem C4_unassigned_identifier_witness :
    (∃ coll1, serve storeUp ⟨"DELETE", "/books/0123456789abcdef01234567", .malformed "EOF"⟩
          { docs := [dune], calls := [] } = some (http.Error "not found" 404, coll1) ∧
        (http.Error "not found" 404).status = 404 ∧ coll1.docs = [dune]) ∧
    (∃ coll1, serve storeUp ⟨"PUT", "/books/654a1f0c9b3e4d2a7c8f0011", .object duneFields⟩
          shelf = some (writeJSON 200 (.object [("message", "updated")]), coll1)) :=
  ⟨(C4_unassigned_identifier storeUp
      ⟨"DELETE", "/books/0123456789abcdef01234567", .malformed "EOF"⟩
      { docs := [dune], calls := [] } "0123456789abcdef01234567" idB (by decide) (by decide) rfl
      (Or.inl rfl)).1 (by decide),
   (C4_unassigned_identifier storeUp
      ⟨"PUT", "/books/654a1f0c9b3e4d2a7c8f0011", .object duneFields⟩
      shelf "654a1f0c9b3e4d2a7c8f0011" idA (by decide) (by decide) rfl
      (Or.inr ⟨rfl, _, rfl⟩)).2 (by decide) rfl⟩

/-- C6: with the store answering and identities unique, `delete(id)` followed
by `delete(id)` is answered 404 "not found" the second time, and the second
call leaves the records as the first call left them. When a record with
identity `id` exists, the first call is answered 200 "deleted" and removes
that record and no other: what remains is the records whose identity is not
`id`, one fewer than before. -/
theorem C6_delete_twice (env env2 : Driver) (r : Request) (coll : Collection) (sfx : String)
    (id : ObjectID) (hp : r.Path = "/books/" ++ sfx) (hm : r.Method = "DELETE")
    (hid : ObjectIDFromHex sfx = some id) (hup : env.fault = none) (hup2 : env2.fault = none)
    (hwf : coll.WF) :
    ∃ w1 coll1 coll2,
      serve env r coll = some (w1, coll1) ∧
      serve env2 r coll1 = some (http.Error "not found" 404, coll2) ∧
      coll2.docs = coll1.docs ∧
      coll1.docs = coll.docs.filter (fun b => decide (b.ID ≠ id)) ∧
      (id ∈ coll.ids →
        w1 = writeJSON 200 (.object [("message", "deleted")]) ∧
        coll1.docs.length + 1 = coll.docs.length ∧
        (∀ b, b ∈ coll1.docs ↔ b ∈ coll.docs ∧ b.ID ≠ id)) := by
  have h1 := serve_delete env r coll sfx id hp hm hid hup
  have hdocs : coll.docs.eraseP (fun b => decide (b.ID = id)) =
      coll.docs.filter (fun b => decide (b.ID ≠ id)) := eraseP_eq_filter id coll.docs hwf
  have hgone : id ∉ Collection.ids
      { docs := coll.docs.eraseP (fun b => decide (b.ID = id)),
        calls := coll.calls ++ [.DeleteOne id] } := by
    show id ∉ (coll.docs.eraseP (fun b => decide (b.ID = id))).map Book.ID
    rw [hdocs]
    exact not_mem_ids_filter id coll.docs
  have h2 := serve_delete env2 r
    { docs := coll.docs.eraseP (fun b => decide (b.ID = id)),
      calls := coll.calls ++ [.DeleteOne id] } sfx id hp hm hid hup2
  rw [if_neg hgone] at h2
  refine ⟨_, _, _, h1, h2, ?_, hdocs, ?_⟩
  · exact eraseP_of_not_mem id _ hgone
  · intro hmem
    refine ⟨by rw [if_pos hmem], ?_, ?_⟩
    · obtain ⟨b, hb, hbid⟩ := List.mem_map.1 hmem
      have hlen := List.length_eraseP_of_mem (p := fun b => decide (b.ID = id)) hb
        (by simp [hbid])
      have hpos : 0 < coll.docs.length := List.length_pos_of_mem hb
      show (coll.docs.eraseP (fun b => decide (b.ID = id))).length + 1 = coll.docs.length
      omega
    · intro b
      show b ∈ coll.docs.eraseP (fun b => decide (b.ID = id)) ↔ _
      rw [hdocs]
      simp [List.mem_filter]

/-- Witness of C6: deleting the first record of the shelf twice. -/
theorem C6_delete_twice_witness :
    ∃ w1 coll1 coll2,
      serve storeUp ⟨"DELETE", "/books/654a1f0c9b3e4d2a7c8f0011", .malformed "EOF"⟩ shelf =
        some (w1, coll1) ∧
      serve storeUp ⟨"DELETE", "/books/654a1f0c9b3e4d2a7c8f0011", .malformed "EOF"⟩ coll1 =
        some (http.Error "not found" 404, coll2) ∧
      coll2.docs = coll1.docs ∧
      coll1.docs = shelf.docs.filter (fun b => decide (b.ID ≠ idA)) ∧
      (idA ∈ shelf.ids →
        w1 = writeJSON 200 (.object [("message", "deleted")]) ∧
        coll1.docs.length + 1 = shelf.docs.length ∧
        (∀ b, b ∈ coll1.docs ↔ b ∈ shelf.docs ∧ b.ID ≠ idA)) :=
  C6_delete_twice storeUp storeUp ⟨"DELETE", "/books/654a1f0c9b3e4d2a7c8f0011", .malformed "EOF"⟩
    shelf "654a1f0c9b3e4d2a7c8f0011" idA (by decide) rfl (by decide) rfl rfl (by decide)

/-- C3: with the store answering and identities unique, an update of an
existing record with a body that decodes is answered 200 "updated".
Afterwards the record with identity `id` has the title, author, price and
stock of the body, a key the JSON leaves out being overwritten with the zero
value (the empty string, 0) and not kept; its identity is still `id`,
whatever `id` key the body has; and every other record is as before. -/
theorem C3_update_overwrites_all_fields (env : Driver) (r : Request) (coll : Collection)
    (sfx : String) (id : ObjectID) (f : BookFields)
    (hp : r.Path = "/books/" ++ sfx) (hm : r.Method = "PUT")
    (hid : ObjectIDFromHex sfx = some id) (hbody : r.Body = .object f)
    (hup : env.fault = none) (hwf : coll.WF) (hmem : id ∈ coll.ids) :
    ∃ coll1,
      serve env r coll = some (writeJSON 200 (.object [("message", "updated")]), coll1) ∧
      coll1.docs = coll.docs.map (fun b =>
        if b.ID = id then
          { ID := id, Title := f.title.getD "", Author := f.author.getD "",
            Price := f.price.getD ⟨0⟩, Stock := f.stock.getD 0 }
        else b) ∧
      ({ ID := id, Title := f.title.getD "", Author := f.author.getD "",
         Price := f.price.getD ⟨0⟩, Stock := f.stock.getD 0 } : Book) ∈ coll1.docs ∧
      coll1.ids = coll.ids := by
  have hdec : jsonDecode r.Body Book.zero =
      .ok { ID := f.id.getD NilObjectID, Title := f.title.getD "", Author := f.author.getD "",
            Price := f.price.getD ⟨0⟩, Stock := f.stock.getD 0 } := by
    rw [hbody]; rfl
  have h1 := serve_update env r coll sfx id _ hp hm hid hdec hup
  rw [if_pos hmem] at h1
  have hmap : updateFirst id
      (SetDoc.apply { title := f.title.getD "", author := f.author.getD "",
                      price := f.price.getD ⟨0⟩, stock := f.stock.getD 0 }) coll.docs =
      coll.docs.map (fun b =>
        if b.ID = id then
          ({ ID := id, Title := f.title.getD "", Author := f.author.getD "",
             Price := f.price.getD ⟨0⟩, Stock := f.stock.getD 0 } : Book)
        else b) := by
    rw [updateFirst_eq_map id _ coll.docs hwf]
    apply List.map_congr_left
    intro b _
    by_cases hb : b.ID = id
    · simp only [hb, if_true, SetDoc.apply]
    · simp only [hb, if_false]
  refine ⟨_, h1, hmap, ?_, ?_⟩
  · show _ ∈ updateFirst id _ coll.docs
    rw [hmap]
    obtain ⟨b, hb, hbid⟩ := List.mem_map.1 hmem
    exact List.mem_map.2 ⟨b, hb, by simp [hbid]⟩
  · show (updateFirst id _ coll.docs).map Book.ID = coll.docs.map Book.ID
    rw [hmap, List.map_map]
    apply List.map_congr_left
    intro b _
    by_cases hb : b.ID = id <;> simp [hb]

/-- Witness of C3: an update of the first record of the shelf with a body
that has only a title and an `id` key naming the other record. -/
theorem C3_update_overwrites_all_fields_witness :
    ∃ coll1,
      serve storeUp ⟨"PUT", "/books/654a1f0c9b3e4d2a7c8f0011",
          .object { id := some idB, title := some "Dune Messiah", author := none, price := none,
                    stock := none }⟩ shelf =
        some (writeJSON 200 (.object [("message", "updated")]), coll1) ∧
      coll1.docs = shelf.docs.map (fun b =>
        if b.ID = idA then
          { ID := idA, Title := (some "Dune Messiah").getD "", Author := (none : Option String).getD "",
            Price := (none : Option Float64).getD ⟨0⟩, Stock := (none : Option Int).getD 0 }
        else b) ∧
      ({ ID := idA, Title := (some "Dune Messiah").getD "", Author := (none : Option String).getD "",
         Price := (none : Option Float64).getD ⟨0⟩, Stock := (none : Option Int).getD 0 } : Book) ∈
        coll1.docs ∧
      coll1.ids = shelf.ids :=
  C3_update_overwrites_all_fields storeUp
    ⟨"PUT", "/books/654a1f0c9b3e4d2a7c8f0011",
      .object { id := some idB, title := some "Dune Messiah", author := none, price := none,
                stock := none }⟩
    shelf "654a1f0c9b3e4d2a7c8f0011" idA _ (by decide) rfl (by decide) rfl rfl (by decide) (by decide)

/-- C5, as the code has it: the identity of an insert is the body's `id`
when it has a non-zero one and the driver's new identity otherwise. With no
fault on either call, a create whose body decodes is answered 201 exactly
when that identity is not yet in the collection, and 500 otherwise. On 201
the reply has `message = created` and `id = h`, where `h` is the hex form of
the identity: 24 characters, all hex digits, parsing back to it; the identity
belonged to no record before; and a following list is answered 200 with every
record that was there before plus one record with that identity and the
title, author, price and stock of the body. On 500 (a duplicate key) no
record is added and the list returns the records as they were. -/
theorem C5_create_then_list (env env2 : Driver) (r r2 : Request) (coll : Collection) (b : Book)
    (hp : r.Path = "/books") (hm : r.Method = "POST")
    (hdec : jsonDecode r.Body Book.zero = .ok b)
    (hp2 : r2.Path = "/books") (hm2 : r2.Method = "GET")
    (hup : env.fault = none) (hup2 : env2.fault = none) :
    ∃ w coll1 coll2,
      serve env r coll = some (w, coll1) ∧
      serve env2 r2 coll1 = some (writeJSON 200 (.books coll1.docs), coll2) ∧
      (w.status = 201 ∨ w.status = 500) ∧
      (w.status = 201 ↔ (if b.ID = NilObjectID then env.newID else b.ID) ∉ coll.ids) ∧
      (w.status = 201 →
        ∃ id, w = writeJSON 201 (.object [("message", "created"), ("id", id.Hex)]) ∧
          id = (if b.ID = NilObjectID then env.newID else b.ID) ∧
          id.Hex.length = 24 ∧ (∀ c ∈ id.Hex.data, c ∈ hextable) ∧
          ObjectIDFromHex id.Hex = some id ∧ id ∉ coll.ids ∧
          coll1.docs = coll.docs ++
            [{ ID := id, Title := b.Title, Author := b.Author, Price := b.Price,
               Stock := b.Stock }]) ∧
      (w.status = 500 → coll1.docs = coll.docs) := by
  have hidx : b.marshal._id.getD env.newID = (if b.ID = NilObjectID then env.newID else b.ID) := by
    rw [marshal_eq]
    by_cases hz : b.ID = NilObjectID <;> simp [hz]
  obtain ⟨w, coll1, h1, _, hok, hdup⟩ := create_effect env r coll b hp hm hdec hup
  rw [hidx] at hok hdup
  have h2 := serve_list env2 r2 coll1 hp2 hm2 hup2
  by_cases hmem : (if b.ID = NilObjectID then env.newID else b.ID) ∈ coll.ids
  · obtain ⟨hs, hd⟩ := hdup hmem
    refine ⟨w, coll1, _, h1, h2, Or.inr hs, ?_, ?_, fun _ => hd⟩
    · constructor
      · intro h201; rw [hs] at h201; cases h201
      · intro hn; exact absurd hmem hn
    · intro h201; rw [hs] at h201; cases h201
  · obtain ⟨hw, hd⟩ := hok hmem
    have hs : w.status = 201 := by rw [hw]; rfl
    refine ⟨w, coll1, _, h1, h2, Or.inl hs, ⟨fun _ => hmem, fun _ => hs⟩, ?_, ?_⟩
    · intro _
      exact ⟨_, hw, rfl, ObjectID.Hex_length _, hexEncode_digits _, ObjectIDFromHex_Hex _, hmem, hd⟩
    · intro h500; rw [hs] at h500; cases h500

/-- Witness of C5: creating a book without `id` on the shelf of two records,
with a driver whose next identity `idC` the shelf does not hold, then
listing. -/
theorem C5_create_then_list_witness :
    ∃ w coll1 coll2,
      serve storeFresh ⟨"POST", "/books", .object duneFields⟩ shelf = some (w, coll1) ∧
      serve storeUp ⟨"GET", "/books", .malformed "EOF"⟩ coll1 =
        some (writeJSON 200 (.books coll1.docs), coll2) ∧
      w = writeJSON 201 (.object [("message", "created"), ("id", idC.Hex)]) ∧
      idC.Hex.length = 24 ∧ ObjectIDFromHex idC.Hex = some idC ∧ idC ∉ shelf.ids ∧
      coll1.docs = [dune, emma] ++
        [{ ID := idC, Title := "Dune", Author := "Herbert", Price := ⟨4621813499897911378⟩,
           Stock := 5 }] := by
  obtain ⟨w, coll1, coll2, h1, h2, _, hiff, h201, _⟩ :=
    C5_create_then_list storeFresh storeUp ⟨"POST", "/books", .object duneFields⟩
      ⟨"GET", "/books", .malformed "EOF"⟩ shelf
      { ID := NilObjectID, Title := "Dune", Author := "Herbert",
        Price := ⟨4621813499897911378⟩, Stock := 5 }
      rfl rfl rfl rfl rfl rfl rfl
  obtain ⟨id, hw, hid, hlen, _, hparse, hnot, hdocs⟩ := h201 (hiff.2 (by decide))
  have hidC : id = idC := by rw [hid]; decide
  subst hidC
  exact ⟨w, coll1, coll2, h1, h2, hw, hlen, hparse, hnot, hdocs⟩

/-- Counterexample to C5 as stated: with a working store, a create whose body
decodes and names the identity `idA` of a record on the shelf is answered 500
(duplicate key), not 201, and no record is added. -/
theorem C5_counterexample_duplicate_identity :
    serve storeFresh ⟨"POST", "/books", .object { duneFields with id := some idA }⟩ shelf =
      some (http.Error "E11000 duplicate key error" 500,
        { docs := [dune, emma],
          calls := [.InsertOne { _id := some idA, title := "Dune", author := "Herbert",
                                 price := ⟨4621813499897911378⟩, stock := 5 }] }) ∧
    storeFresh.fault = none ∧
    jsonDecode (.object { duneFields with id := some idA }) Book.zero =
      .ok { ID := idA, Title := "Dune", Author := "Herbert", Price := ⟨4621813499897911378⟩,
            Stock := 5 } ∧
    (http.Error "E11000 duplicate key error" 500).status ≠ 201 :=
  ⟨by decide, rfl, rfl, by decide⟩

/-- C2, as the code has it: `createBook` decodes the `id` key into `Book.ID`
and hands the whole book to `InsertOne`. With the store answering and a body
that decodes to a book with identity `x` (the zero identity when the body has
no `id`): the one call made is `InsertOne` of the marshalled book, which has
no `_id` exactly when `x` is zero. When `x` is zero the stored record gets
the identity the driver makes; when `x` is not zero the stored record has the
identity `x` the client sent, and the reply names it; and when a record
already has `x` the insert fails, the reply is 500 and no record is added.
In all cases the title, author, price and stock handed over are the body's. -/
theorem C2_create_identity_from_body (env : Driver) (r : Request) (coll : Collection)
    (f : BookFields) (x : ObjectID)
    (hp : r.Path = "/books") (hm : r.Method = "POST") (hbody : r.Body = .object f)
    (hx : f.id.getD NilObjectID = x) (hup : env.fault = none) :
    ∃ w coll1,
      serve env r coll = some (w, coll1) ∧
      coll1.calls = coll.calls ++
        [.InsertOne { _id := if x = NilObjectID then none else some x, title := f.title.getD "",
                      author := f.author.getD "", price := f.price.getD ⟨0⟩,
                      stock := f.stock.getD 0 }] ∧
      (x = NilObjectID → env.newID ∉ coll.ids →
        w = writeJSON 201 (.object [("message", "created"), ("id", env.newID.Hex)]) ∧
        coll1.docs = coll.docs ++
          [{ ID := env.newID, Title := f.title.getD "", Author := f.author.getD "",
             Price := f.price.getD ⟨0⟩, Stock := f.stock.getD 0 }]) ∧
      (x ≠ NilObjectID → x ∉ coll.ids →
        w = writeJSON 201 (.object [("message", "created"), ("id", x.Hex)]) ∧
        coll1.docs = coll.docs ++
          [{ ID := x, Title := f.title.getD "", Author := f.author.getD "",
             Price := f.price.getD ⟨0⟩, Stock := f.stock.getD 0 }]) ∧
      (x ≠ NilObjectID → x ∈ coll.ids → w.status = 500 ∧ coll1.docs = coll.docs) := by
  have hdec : jsonDecode r.Body Book.zero =
      .ok { ID := x, Title := f.title.getD "", Author := f.author.getD "",
            Price := f.price.getD ⟨0⟩, Stock := f.stock.getD 0 } := by
    rw [hbody, ← hx]; rfl
  obtain ⟨w, coll1, h1, hcalls, hok, hdup⟩ := create_effect env r coll _ hp hm hdec hup
  rw [marshal_eq] at hcalls
  simp only [marshal_eq] at hok hdup
  refine ⟨w, coll1, h1, hcalls, ?_, ?_, ?_⟩
  · intro hz hn
    simp only [hz, if_true, Option.getD_none] at hok
    exact hok hn
  · intro hz hn
    simp only [hz, if_false, Option.getD_some] at hok
    exact hok hn
  · intro hz hn
    simp only [hz, if_false, Option.getD_some] at hdup
    exact hdup hn

/-- Witness of C2: a create whose body names the identity `idB`, on a shelf
that holds no record with it. -/
theorem C2_create_identity_from_body_witness :
    ∃ w coll1,
      serve storeUp ⟨"POST", "/books", .object { duneFields with id := some idB }⟩
          { docs := [dune], calls := [] } = some (w, coll1) ∧
      coll1.calls = [] ++
        [.InsertOne { _id := if idB = NilObjectID then none else some idB,
                      title := (some "Dune").getD "", author := (some "Herbert").getD "",
                      price := (some (⟨4621813499897911378⟩ : Float64)).getD ⟨0⟩,
                      stock := (some (5 : Int)).getD 0 }] ∧
      w = writeJSON 201 (.object [("message", "created"), ("id", idB.Hex)]) ∧
      coll1.docs = [dune] ++
        [{ ID := idB, Title := (some "Dune").getD "", Author := (some "Herbert").getD "",
           Price := (some (⟨4621813499897911378⟩ : Float64)).getD ⟨0⟩,
           Stock := (some (5 : Int)).getD 0 }] := by
  obtain ⟨w, coll1, h1, h2, _, h4, _⟩ :=
    C2_create_identity_from_body storeUp
      ⟨"POST", "/books", .object { duneFields with id := some idB }⟩
      { docs := [dune], calls := [] } { duneFields with id := some idB } idB rfl rfl rfl rfl rfl
  exact ⟨w, coll1, h1, h2, h4 (by decide) (by decide)⟩

/-- Counterexample to C2 as stated: two creates on the empty shelf whose
bodies differ only in the `id` key. Without it the store is handed a document
with no `_id` and the record gets the driver's identity `idA`; with
`id = idB` the store is handed a document with `_id = idB` and the record is
stored under `idB`, the identity the client sent. -/
theorem C2_counterexample_client_identity_kept :
    (serve storeUp ⟨"POST", "/books", .object duneFields⟩ emptyShelf).map
        (fun p => (p.2.ids, p.2.calls)) =
      some ([idA], [.InsertOne { _id := none, title := "Dune", author := "Herbert",
                                 price := ⟨4621813499897911378⟩, stock := 5 }]) ∧
    (serve storeUp ⟨"POST", "/books", .object { duneFields with id := some idB }⟩ emptyShelf).map
        (fun p => (p.2.ids, p.2.calls)) =
      some ([idB], [.InsertOne { _id := some idB, title := "Dune", author := "Herbert",
                                 price := ⟨4621813499897911378⟩, stock := 5 }]) ∧
    idA ≠ idB := by
  decide

end CatalogService
